import Mathlib

/-!
# Verification of the Neon Sky audio mastering signal-chain engine

A shallow embedding of the engine found in
`client/src/hooks/useAudioEngine.ts` and the AudioWorklet processors
(`MeterProcessor`, `LimiterProcessor`).  JavaScript numbers are modelled as
exact rationals (`ℚ`) where the code only uses ring operations and
comparisons (the React-state controller, the meter's running sums, the
visualizer loop), and as reals (`ℝ`) where the code uses transcendental
functions (`Math.log10`, `Math.exp`, `Math.tanh`, `Math.pow`, `Math.sqrt`).
Arrays are modelled as lists; out-of-bounds reads, which JavaScript turns
into `undefined || 0`, are modelled with `List.getD _ _ 0`.
-/

namespace NeonSky

/-- `clamp` from useAudioEngine.ts: `Math.min(max, Math.max(min, n))`. -/
def clamp {α : Type} [LinearOrder α] (n lo hi : α) : α :=
  min hi (max lo n)

/-- JavaScript extended numbers: a float is NaN, ±Infinity, or a finite value
(finite values modelled as reals). Used to model the `x || 0` sanitization
the worklet code applies to input samples. -/
inductive JSNum where
  | nan : JSNum
  | pinf : JSNum
  | ninf : JSNum
  | fin : ℝ → JSNum

/-- Semantics of the JavaScript expression `x || 0` on an extended number:
`NaN` and `0` are falsy and yield `0`; every other value (including
`±Infinity`) is truthy and passes through unchanged. -/
def orZero : JSNum → JSNum
  | .nan => .fin 0
  | .fin x => .fin x
  | v => v

/-- Whether an extended number is an ordinary finite float. -/
def JSNum.isFinite : JSNum → Bool
  | .fin _ => true
  | _ => false

/-! ## Signal Graph Controller state (useAudioEngine.ts)

The React state owned by `useAudioEngine`, restricted to the fields the
parameter API and the preset manager touch.  `useState` initial values are
taken from lines 2066–2133 of the hook.
-/

/-- The five fixed EQ bands. -/
inductive Band where
  | sub | low | mid | high | air
  deriving DecidableEq, Repr

/-- EQ gains for the 5 fixed bands (a `Record<Band, number>` in the source). -/
structure EqSettings where
  sub : ℚ
  low : ℚ
  mid : ℚ
  high : ℚ
  air : ℚ
  deriving DecidableEq, Repr

/-- Read one band's stored gain. -/
def EqSettings.get (e : EqSettings) : Band → ℚ
  | .sub => e.sub
  | .low => e.low
  | .mid => e.mid
  | .high => e.high
  | .air => e.air

/-- Functional update of one band's gain (the spread `{...prev, [band]: g}`). -/
def EqSettings.setBand (e : EqSettings) : Band → ℚ → EqSettings
  | .sub, g => { e with sub := g }
  | .low, g => { e with low := g }
  | .mid, g => { e with mid := g }
  | .high, g => { e with high := g }
  | .air, g => { e with air := g }

structure CompressorSettings where
  threshold : ℚ
  ratio : ℚ
  attack : ℚ
  release : ℚ
  makeup : ℚ
  bypass : Bool
  deriving DecidableEq, Repr

structure LimiterSettings where
  threshold : ℚ
  ceiling : ℚ
  release : ℚ
  softClip : Bool
  bypass : Bool
  deriving DecidableEq, Repr

structure SaturationSettings where
  drive : ℚ
  mix : ℚ
  bypass : Bool
  deriving DecidableEq, Repr

structure StereoSettings where
  width : ℚ
  pan : ℚ
  mono : Bool
  bypass : Bool
  deriving DecidableEq, Repr

structure OutputSettings where
  trim : ℚ
  bypass : Bool
  deriving DecidableEq, Repr

/-- A stored preset: full chain state plus the integrated LUFS measured at
capture time (`lufs` is optional in the interchange format, hence `Option`;
the code reads it with `preset.lufs ?? meter.lufsIntegrated`). -/
structure MasteringPreset where
  name : String
  eq : EqSettings
  compressor : CompressorSettings
  limiter : LimiterSettings
  saturation : SaturationSettings
  stereo : StereoSettings
  output : OutputSettings
  lufs : Option ℚ
  deriving DecidableEq, Repr

/-- The two preset slots. -/
inductive Slot where
  | A | B
  deriving DecidableEq, Repr

/-- The controller state: chain parameters, volume, preset slots,
gain-match state, the meter's last integrated LUFS reading, and the
persisted copy of each preset slot (`localStorage`). -/
structure EngineState where
  activeBand : Band
  eq : EqSettings
  compressor : CompressorSettings
  limiter : LimiterSettings
  saturation : SaturationSettings
  stereo : StereoSettings
  output : OutputSettings
  volume : ℚ
  isMuted : Bool
  presetA : Option MasteringPreset
  presetB : Option MasteringPreset
  activePresetSlot : Slot
  gainMatchEnabled : Bool
  gainMatchOffset : ℚ
  meterLufsIntegrated : ℚ
  storageA : Option MasteringPreset
  storageB : Option MasteringPreset
  deriving DecidableEq, Repr

/-- `DEFAULT_EQ`: all five band gains 0. -/
def DEFAULT_EQ : EqSettings := ⟨0, 0, 0, 0, 0⟩

/-- The `useState` initial values of the engine (useAudioEngine.ts
lines 2074–2133). -/
def initEngineState : EngineState where
  activeBand := .mid
  eq := DEFAULT_EQ
  compressor := ⟨-18, 2, 1/100, 1/4, 0, false⟩
  limiter := ⟨-6, -3/10, 120, true, false⟩
  saturation := ⟨1/5, 2/5, false⟩
  stereo := ⟨1, 0, false, false⟩
  output := ⟨0, false⟩
  volume := 1
  isMuted := false
  presetA := none
  presetB := none
  activePresetSlot := .A
  gainMatchEnabled := false
  gainMatchOffset := 0
  meterLufsIntegrated := -120
  storageA := none
  storageB := none

/-- `applyBandGain(band, gainDb)`: clamps the gain to `[-24, 24]`, marks the
band active and stores the clamped value (the live filter node receives the
same clamped value). -/
def applyBandGain (st : EngineState) (band : Band) (gainDb : ℚ) : EngineState :=
  let g := clamp gainDb (-24) 24
  { st with activeBand := band, eq := st.eq.setBand band g }

/-- `setCompressor` is the raw `useState` setter: it stores the given record
unchanged (no clamping happens on this path). -/
def setCompressor (st : EngineState) (v : CompressorSettings) : EngineState :=
  { st with compressor := v }

/-- `setLimiter` is the raw `useState` setter: no clamping. -/
def setLimiter (st : EngineState) (v : LimiterSettings) : EngineState :=
  { st with limiter := v }

/-- `setSaturation` is the raw `useState` setter: no clamping. -/
def setSaturation (st : EngineState) (v : SaturationSettings) : EngineState :=
  { st with saturation := v }

/-- `setStereo` is the raw `useState` setter: no clamping. -/
def setStereo (st : EngineState) (v : StereoSettings) : EngineState :=
  { st with stereo := v }

/-- `setOutput` is the raw `useState` setter: no clamping. -/
def setOutput (st : EngineState) (v : OutputSettings) : EngineState :=
  { st with output := v }

/-- `handleVolumeChange(newVolume)`: clamps to `[0,1]`, stores it and derives
the mute flag. -/
def handleVolumeChange (st : EngineState) (newVolume : ℚ) : EngineState :=
  let clampedVolume := clamp newVolume 0 1
  { st with volume := clampedVolume, isMuted := clampedVolume = 0 }

/-- `applyPreset(preset)`: writes every chain sub-state from the preset.
(`setEq({...DEFAULT_EQ, ...preset.eq})` equals `preset.eq` for a full EQ
record, which stored presets always carry.) -/
def applyPreset (st : EngineState) (p : MasteringPreset) : EngineState :=
  { st with eq := p.eq, compressor := p.compressor, limiter := p.limiter,
            saturation := p.saturation, stereo := p.stereo, output := p.output }

/-- The preset stored in a slot. -/
def presetFor (st : EngineState) : Slot → Option MasteringPreset
  | .A => st.presetA
  | .B => st.presetB

/-- `recallPresetSlot(slot)` (useAudioEngine.ts lines 2940–2963): if the slot
holds a preset, computes the gain-match offset
`clamp(currentLufs - nextLufs, -12, 12)` when gain-matching is enabled
(0 otherwise), where `currentLufs` is the active slot's captured LUFS
(falling back to the live integrated reading) and `nextLufs` is the recalled
preset's captured LUFS (same fallback); then activates the slot and applies
the preset. -/
def recallPresetSlot (st : EngineState) (slot : Slot) : EngineState :=
  match presetFor st slot with
  | none => st
  | some preset =>
    let currentPreset := presetFor st st.activePresetSlot
    let currentLufs := (currentPreset.bind MasteringPreset.lufs).getD st.meterLufsIntegrated
    let nextLufs := preset.lufs.getD st.meterLufsIntegrated
    let offset := if st.gainMatchEnabled then clamp (currentLufs - nextLufs) (-12) 12 else 0
    applyPreset { st with gainMatchOffset := offset, activePresetSlot := slot } preset

/-- Setting the gain-match flag; models the effect at lines 2900–2902
(`if (!gainMatchEnabled) setGainMatchOffset(0)`) that runs right after the
flag changes. -/
def setGainMatchEnabled (st : EngineState) (enabled : Bool) : EngineState :=
  { st with gainMatchEnabled := enabled,
            gainMatchOffset := if enabled then st.gainMatchOffset else 0 }

/-- A parsed preset document: any of the top-level sub-objects may be absent
(`undefined` after `JSON.parse`), modelled as `Option`. -/
structure ParsedPreset where
  name : Option String
  eq : Option EqSettings
  compressor : Option CompressorSettings
  limiter : Option LimiterSettings
  saturation : Option SaturationSettings
  stereo : Option StereoSettings
  output : Option OutputSettings
  lufs : Option ℚ
  deriving DecidableEq, Repr

/-- `importPresetJson` (useAudioEngine.ts lines 2978–2993): validates that
`eq`, `compressor` and `limiter` are present; if any is absent it throws
`"Invalid preset file."` before any state mutation.  Otherwise it applies
the preset, stores it in the active slot and persists it.  (For the valid
path the optional sub-objects are modelled with defaults; the claim under
verification only concerns the rejecting path.) -/
def importPresetJson (st : EngineState) (parsed : ParsedPreset) :
    EngineState × Option String :=
  if parsed.eq = none ∨ parsed.compressor = none ∨ parsed.limiter = none then
    (st, some "Invalid preset file.")
  else
    let preset : MasteringPreset :=
      { name := parsed.name.getD ""
        eq := parsed.eq.getD DEFAULT_EQ
        compressor := parsed.compressor.getD initEngineState.compressor
        limiter := parsed.limiter.getD initEngineState.limiter
        saturation := parsed.saturation.getD initEngineState.saturation
        stereo := parsed.stereo.getD initEngineState.stereo
        output := parsed.output.getD initEngineState.output
        lufs := parsed.lufs }
    let st1 := applyPreset st preset
    let st2 :=
      match st.activePresetSlot with
      | .A => { st1 with presetA := some preset, storageA := some preset }
      | .B => { st1 with presetB := some preset, storageB := some preset }
    (st2, none)

/-! ## Meter Unit (`MeterProcessor` in the worklet file)

Audio blocks are channel-major lists (`input[ch][i]`, as in the worklet).
The running state and sums use only field operations on the samples, so
they live in `ℚ`; the reported loudness/rms/correlation values use
`log10`/`sqrt` and live in `ℝ`.  The per-sample loop is split into
`meterStep` (one iteration of the `i` loop), `meterScan` (the loop), and
`meterBlock` (the surrounding `process` call with its reporting branch).
-/

/-- The local accumulators of one `process` call: `peak`, `sumSquares`, and
the correlation sums `sumL` (Σ L·R), `sumLL`, `sumRR`, `sumR` (sample
count).  They are local variables in the source, so they restart at zero on
every block. -/
structure BlockSums where
  peak : ℚ
  sumSquares : ℚ
  sumL : ℚ
  sumLL : ℚ
  sumRR : ℚ
  sumR : ℚ
  deriving DecidableEq, Repr

/-- The persistent fields of `MeterProcessor`. -/
structure MeterState where
  sampleRate : ℚ
  momentaryWindow : ℕ
  shortWindow : ℕ
  momentaryBuffer : List ℚ
  shortBuffer : List ℚ
  momentaryIndex : ℕ
  shortIndex : ℕ
  momentarySum : ℚ
  shortSum : ℚ
  integratedSum : ℚ
  integratedCount : ℕ
  frameCounter : ℕ
  lastReport : ℕ
  deriving DecidableEq, Repr

/-- The `MeterProcessor` constructor: 400 ms and 3000 ms windows (at least
one sample each), zeroed ring buffers and sums. -/
def initMeter (sr : ℚ) : MeterState :=
  let momentaryWindow := max 1 ⌊sr * (4/10)⌋.toNat
  let shortWindow := max 1 ⌊sr * 3⌋.toNat
  { sampleRate := sr
    momentaryWindow := momentaryWindow
    shortWindow := shortWindow
    momentaryBuffer := List.replicate momentaryWindow 0
    shortBuffer := List.replicate shortWindow 0
    momentaryIndex := 0
    shortIndex := 0
    momentarySum := 0
    shortSum := 0
    integratedSum := 0
    integratedCount := 0
    frameCounter := 0
    lastReport := 0 }

/-- One iteration of the sample loop of `MeterProcessor.process` (index
`i`): accumulates the frame's mean square into the three windows and the
correlation sums.  `channels` is `input.length`, passed the way the source
reads it once before the loop. -/
def meterStep (channels : ℕ) (input : List (List ℚ)) (i : ℕ)
    (st : MeterState) (sums : BlockSums) : MeterState × BlockSums :=
  let frameSum := input.foldl (fun acc chData =>
    acc + chData.getD i 0 * chData.getD i 0) 0
  let peak := input.foldl (fun p chData => max p |chData.getD i 0|) sums.peak
  let frameMs := frameSum / (channels : ℚ)
  let corr :=
    if 1 < channels then
      let l := (input.getD 0 []).getD i 0
      let r := (input.getD 1 []).getD i 0
      (sums.sumL + l * r, sums.sumLL + l * l, sums.sumRR + r * r, sums.sumR + 1)
    else
      (sums.sumL, sums.sumLL, sums.sumRR, sums.sumR)
  ({ st with
      momentarySum := st.momentarySum - st.momentaryBuffer.getD st.momentaryIndex 0 + frameMs
      momentaryBuffer := st.momentaryBuffer.set st.momentaryIndex frameMs
      momentaryIndex := (st.momentaryIndex + 1) % st.momentaryWindow
      shortSum := st.shortSum - st.shortBuffer.getD st.shortIndex 0 + frameMs
      shortBuffer := st.shortBuffer.set st.shortIndex frameMs
      shortIndex := (st.shortIndex + 1) % st.shortWindow
      integratedSum := st.integratedSum + frameMs
      integratedCount := st.integratedCount + 1 },
   { peak := peak
     sumSquares := sums.sumSquares + frameMs
     sumL := corr.1
     sumLL := corr.2.1
     sumRR := corr.2.2.1
     sumR := corr.2.2.2 })

/-- The whole sample loop of one `process` call. -/
def meterScan (st : MeterState) (input : List (List ℚ)) : MeterState × BlockSums :=
  (List.range (input.headD []).length).foldl
    (fun acc i => meterStep input.length input i acc.1 acc.2)
    (st, ⟨0, 0, 0, 0, 0, 0⟩)

/-- The correlation sums of one block computed directly (Σ L·R, Σ L², Σ R²
over the block's samples, when it is at least stereo). -/
def corrSums (input : List (List ℚ)) : ℚ × ℚ × ℚ :=
  if 1 < input.length then
    (((List.range (input.headD []).length).map (fun i =>
        (input.getD 0 []).getD i 0 * (input.getD 1 []).getD i 0)).sum,
     ((List.range (input.headD []).length).map (fun i =>
        (input.getD 0 []).getD i 0 * (input.getD 0 []).getD i 0)).sum,
     ((List.range (input.headD []).length).map (fun i =>
        (input.getD 1 []).getD i 0 * (input.getD 1 []).getD i 0)).sum)
  else (0, 0, 0)

noncomputable section

/-- `MeterProcessor._calcLufs`: `ms <= 0 ? -120 : -0.691 + 10 * log10(ms)`. -/
def calcLufs (ms : ℝ) : ℝ :=
  if ms ≤ 0 then -120 else -0.691 + 10 * Real.logb 10 ms

/-- The payload of `port.postMessage` at a report. -/
structure Report where
  peak : ℚ
  rms : ℝ
  lufsMomentary : ℝ
  lufsShort : ℝ
  lufsIntegrated : ℝ
  correlation : ℝ

/-- `MeterProcessor.process`: runs the sample loop, passes the audio
through unchanged (`output[ch][i] = bypass ? input[ch][i] : input[ch][i]`),
advances the frame counter, and every ≥50 ms of processed audio emits a
report computed from the current window sums and this block's correlation
sums. -/
def meterBlock (st : MeterState) (bypass : ℚ) (input : List (List ℚ)) :
    MeterState × List (List ℚ) × Option Report :=
  if input.length = 0 then (st, input, none)
  else
    let channels := input.length
    let samples := (input.headD []).length
    let scanned := meterScan st input
    let st1 := scanned.1
    let sums := scanned.2
    let output := input.map (fun chData => chData.map (fun s =>
      if bypass ≠ 0 then s else s))
    let st2 := { st1 with frameCounter := st1.frameCounter + samples }
    if st2.sampleRate * (5/100) ≤ (st2.frameCounter : ℚ) - (st2.lastReport : ℚ) then
      let st3 := { st2 with lastReport := st2.frameCounter }
      let momentaryMs : ℚ := st3.momentarySum / (st3.momentaryWindow : ℚ)
      let shortMs : ℚ := st3.shortSum / (st3.shortWindow : ℚ)
      let integratedMs : ℚ :=
        if 0 < st3.integratedCount then st3.integratedSum / (st3.integratedCount : ℚ) else 0
      let correlation : ℝ :=
        if 1 < channels ∧ 0 < sums.sumLL ∧ 0 < sums.sumRR then
          (sums.sumL : ℝ) / Real.sqrt ((sums.sumLL : ℝ) * (sums.sumRR : ℝ))
        else 0
      (st3, output,
        some { peak := sums.peak
               rms := Real.sqrt ((sums.sumSquares : ℝ) / (samples : ℝ))
               lufsMomentary := calcLufs (momentaryMs : ℝ)
               lufsShort := calcLufs (shortMs : ℝ)
               lufsIntegrated := calcLufs (integratedMs : ℝ)
               correlation := correlation })
    else
      (st2, output, none)

/-- A sequence of `process` calls, collecting the emitted reports. -/
def meterRun (st : MeterState) (bypass : ℚ) :
    List (List (List ℚ)) → MeterState × List Report
  | [] => (st, [])
  | input :: rest =>
    let step := meterBlock st bypass input
    let more := meterRun step.1 bypass rest
    (more.1, step.2.2.toList ++ more.2)

/-- Modelled from the spec: "Correlation accumulates Σ L·R, Σ L², Σ R²
since the last report and resets every report", with the reported value
`ΣLR / sqrt(ΣLL·ΣRR)`, "defined as 0 if either sum is 0" — computed here
over all blocks processed since the last report, for comparison with what
the processor actually reports. -/
def specCorrelationSinceReport (blocks : List (List (List ℚ))) : ℝ :=
  let sums := blocks.foldl
    (fun acc b =>
      let s := corrSums b
      (acc.1 + s.1, acc.2.1 + s.2.1, acc.2.2 + s.2.2))
    ((0 : ℚ), (0 : ℚ), (0 : ℚ))
  if sums.2.1 = 0 ∨ sums.2.2 = 0 then 0
  else (sums.1 : ℝ) / Real.sqrt ((sums.2.1 : ℝ) * (sums.2.2 : ℝ))

/-! ## Limiter Unit (`LimiterProcessor` in the worklet file) -/

/-- The five AudioParams of `LimiterProcessor`, one value per block
(k-rate). -/
structure LimiterParams where
  threshold : ℝ
  ceiling : ℝ
  release : ℝ
  softClip : ℝ
  bypass : ℝ

/-- The nominal-range clamping the AudioParam runtime applies to automation
values, per the `parameterDescriptors` of `LimiterProcessor`
(`threshold` ∈ [-24,0], `ceiling` ∈ [-6,0], `release` ∈ [10,1000],
`softClip`, `bypass` ∈ [0,1]). -/
def limiterParamClamp (p : LimiterParams) : LimiterParams where
  threshold := clamp p.threshold (-24) 0
  ceiling := clamp p.ceiling (-6) 0
  release := clamp p.release 10 1000
  softClip := clamp p.softClip 0 1
  bypass := clamp p.bypass 0 1

/-- `Math.sign`. -/
def jsSign (x : ℝ) : ℝ :=
  if 0 < x then 1 else if x < 0 then -1 else 0

/-- `_dbToGain(db) = Math.pow(10, db / 20)` (also the module-level
`dbToGain` of useAudioEngine.ts). -/
def dbToGain (db : ℝ) : ℝ :=
  (10 : ℝ) ^ (db / 20)

/-- `LimiterProcessor._softClip(sample, ceiling)`:
`tanh(sample / max(0.0001, ceiling)) * max(0.0001, ceiling)`. -/
def softClipFn (sample ceiling : ℝ) : ℝ :=
  let c := max (1/10000) ceiling
  Real.tanh (sample / c) * c

/-- One iteration (sample index `i`) of the loop of
`LimiterProcessor.process`: cross-channel peak detection, instant-attack /
exponential-release envelope, per-channel gain, hard clamp to ±ceiling, and
optional soft clip.  Returns the new envelope and the output frame (one
sample per channel). -/
def limiterStep (sampleRate : ℝ) (p : LimiterParams) (input : List (List ℝ))
    (i : ℕ) (env : ℝ) : ℝ × List ℝ :=
  let threshold := dbToGain p.threshold
  let ceiling := dbToGain p.ceiling
  let peak := input.foldl (fun acc chData => max acc |chData.getD i 0|) 0
  let targetGain := if threshold < peak ∧ 0 < peak then threshold / peak else 1
  let releaseCoeff := Real.exp (-1 / (sampleRate * (p.release / 1000)))
  let env1 := if targetGain < env then targetGain
    else env + (targetGain - env) * (1 - releaseCoeff)
  let outs := input.map (fun chData =>
    let sample := chData.getD i 0
    let out0 := if (5/10 : ℝ) < p.bypass then sample else sample * env1
    let out1 := if ceiling < |out0| then jsSign out0 * ceiling else out0
    if (5/10 : ℝ) < p.softClip then softClipFn out1 ceiling else out1)
  (env1, outs)

/-- `LimiterProcessor.process` on one block: empty input passes through; a
non-empty block runs the sample loop with the runtime-clamped parameters.
The output is collected sample-major (the list of output frames, in sample
order). -/
def limiterBlock (sampleRate : ℝ) (p0 : LimiterParams) (env0 : ℝ)
    (input : List (List ℝ)) : ℝ × List (List ℝ) :=
  if input.length = 0 then (env0, [])
  else
    let p := limiterParamClamp p0
    (List.range (input.headD []).length).foldl
      (fun acc i =>
        let s := limiterStep sampleRate p input i acc.1
        (s.1, acc.2 ++ [s.2]))
      (env0, [])

/-! ## Offline render normalization (useAudioEngine.ts lines 1726–1752 and
3137–3142) -/

/-- `calcIntegratedLufs(buffer)`: whole-buffer (non-windowed) mean square of
the rendered buffer, fed through the same loudness formula as the meter.
Buffers are channel-major. -/
def calcIntegratedLufs (buffer : List (List ℝ)) : ℝ :=
  if buffer.length = 0 ∨ (buffer.headD []).length = 0 then -120
  else
    let sum := ((List.range (buffer.headD []).length).map (fun i =>
      (buffer.foldl (fun acc chData => acc + chData.getD i 0 * chData.getD i 0) 0)
        / (buffer.length : ℝ))).sum
    let ms := sum / ((buffer.headD []).length : ℝ)
    if ms ≤ 0 then -120 else -0.691 + 10 * Real.logb 10 ms

/-- Modelled from the spec: the "whole-buffer mean-square" of the rendered
buffer (per-frame mean square averaged over the whole buffer), for
comparison with the value `calcIntegratedLufs` feeds to the loudness
formula. -/
def wholeBufferMeanSquare (buffer : List (List ℝ)) : ℝ :=
  ((List.range (buffer.headD []).length).map (fun i =>
      (buffer.foldl (fun acc chData => acc + chData.getD i 0 * chData.getD i 0) 0)
        / (buffer.length : ℝ))).sum
    / ((buffer.headD []).length : ℝ)

/-- `applyGainToBuffer(buffer, gain)`: every sample is multiplied by the
gain and hard-clamped to `[-1, 1]` (`data[i] = clamp(data[i] * gain, -1, 1)`). -/
def applyGainToBuffer (buffer : List (List ℝ)) (gain : ℝ) : List (List ℝ) :=
  buffer.map (fun data => data.map (fun s => clamp (s * gain) (-1) 1))

/-- The normalization step of `exportOfflineWav` (lines 3137–3142): measure
the rendered buffer, compute `delta = targetLufs - lufs`, and apply
`dbToGain delta` with the hard clamp. -/
def normalizeRender (rendered : List (List ℝ)) (targetLufs : ℝ) : List (List ℝ) :=
  let lufs := calcIntegratedLufs rendered
  let delta := targetLufs - lufs
  let normGain := dbToGain delta
  applyGainToBuffer rendered normGain

end

/-! ## Visualizer Scheduler (`StableVisualizerLoop`, useAudioEngine.ts
lines 1755–1930)

The loop's timing state uses only field operations and comparisons on
`performance.now()` timestamps, so it is modelled over `ℚ`.  One call of
the private `loop` callback is `vizLoopTick`; a run is a fold over the
sequence of tick timestamps.  Each tick reports whether the critical pass
(clear) ran, whether the background draw pass ran, and whether the
auto-disable host signal was fired.
-/

/-- JavaScript `%` (fmod) on the nonnegative operands produced by the loop. -/
def jsMod (a b : ℚ) : ℚ :=
  a - b * (⌊a / b⌋ : ℚ)

/-- The frame-timing state of `StableVisualizerLoop`. -/
structure VizState where
  isRunning : Bool
  lastFrameTime : ℚ
  frameCount : ℕ
  fpsEma : ℚ
  lowFpsDuration : ℚ
  renderEvery : ℕ
  deriving DecidableEq, Repr

/-- What one tick of the loop did. -/
structure TickOut where
  drewCritical : Bool
  drewBackground : Bool
  signaled : Bool
  deriving DecidableEq, Repr

/-- `frameInterval = 1000 / 60`. -/
def frameInterval : ℚ := 1000 / 60

/-- `lowFpsThreshold = 32`. -/
def lowFpsThreshold : ℚ := 32

/-- `lowFpsWindow = 4000`. -/
def lowFpsWindow : ℚ := 4000

/-- A tick that neither drew nor signaled. -/
def quietTick : TickOut := ⟨false, false, false⟩

/-- The field values `start()` sets before the first tick. -/
def vizStart (now : ℚ) (s : VizState) : VizState :=
  { s with isRunning := true, lastFrameTime := now, lowFpsDuration := 0 }

/-- One invocation of `StableVisualizerLoop.loop`: returns early when
stopped or under the frame-rate ceiling; otherwise updates the fps EMA and
the cumulative low-fps duration, stops and signals the host once when that
duration exceeds the window, and otherwise performs the critical pass and
every `renderEvery`-th background pass. -/
def vizLoopTick (s : VizState) (now : ℚ) : VizState × TickOut :=
  if s.isRunning = false then (s, quietTick)
  else
    let elapsed := now - s.lastFrameTime
    if elapsed < frameInterval then (s, quietTick)
    else
      let lastFrameTime := now - jsMod elapsed frameInterval
      let frameCount := s.frameCount + 1
      let instantFps := if 0 < elapsed then 1000 / elapsed else 60
      let fpsEma := s.fpsEma * (9/10) + instantFps * (1/10)
      let lowFpsDuration :=
        if fpsEma < lowFpsThreshold then s.lowFpsDuration + elapsed else 0
      if lowFpsWindow < lowFpsDuration then
        ({ s with isRunning := false, lastFrameTime := lastFrameTime,
                  frameCount := frameCount, fpsEma := fpsEma,
                  lowFpsDuration := lowFpsDuration },
         ⟨false, false, true⟩)
      else
        let renderEvery : ℕ := if fpsEma < 30 then 3 else if fpsEma < 45 then 2 else 1
        ({ s with lastFrameTime := lastFrameTime, frameCount := frameCount,
                  fpsEma := fpsEma, lowFpsDuration := lowFpsDuration,
                  renderEvery := renderEvery },
         ⟨true, frameCount % renderEvery == 0, false⟩)

/-- A run of the loop over a list of tick timestamps, collecting each
tick's effects. -/
def vizRun (s : VizState) : List ℚ → VizState × List TickOut
  | [] => (s, [])
  | now :: rest =>
    let t := vizLoopTick s now
    let more := vizRun t.1 rest
    (more.1, t.2 :: more.2)

/-! ## Concrete instances used to instantiate the theorems -/

/-- Silence: for each `(channels, samples)` pair, one all-zero
channel-major block. -/
def zeroBlocks (shape : List (ℕ × ℕ)) : List (List (List ℚ)) :=
  shape.map (fun cs => List.replicate cs.1 (List.replicate cs.2 0))

/-- A meter state that has seen only silence: all window sums are zero and
the ring buffers hold only zeros. -/
def SilentMeter (st : MeterState) : Prop :=
  st.momentarySum = 0 ∧ st.shortSum = 0 ∧ st.integratedSum = 0 ∧
  (∀ x ∈ st.momentaryBuffer, x = 0) ∧ (∀ x ∈ st.shortBuffer, x = 0)

/-- A preset captured at -10 LUFS ("Preset A" of the gain-match scenario). -/
def demoPresetA : MasteringPreset :=
  ⟨"Preset A", DEFAULT_EQ, initEngineState.compressor, initEngineState.limiter,
   initEngineState.saturation, initEngineState.stereo, initEngineState.output,
   some (-10)⟩

/-- A preset captured at -16 LUFS ("Preset B" of the gain-match scenario). -/
def demoPresetB : MasteringPreset :=
  ⟨"Preset B", DEFAULT_EQ, initEngineState.compressor, initEngineState.limiter,
   initEngineState.saturation, initEngineState.stereo, initEngineState.output,
   some (-16)⟩

/-- Engine state with preset A active, preset B stored, gain-matching on. -/
def demoStateAB : EngineState :=
  { initEngineState with
      presetA := some demoPresetA
      presetB := some demoPresetB
      activePresetSlot := .A
      gainMatchEnabled := true }

/-- A parsed preset document missing the required `eq` sub-object. -/
def demoBadParsed : ParsedPreset :=
  ⟨none, none, some initEngineState.compressor, some initEngineState.limiter,
   none, none, none, none⟩

/-- A degraded visualizer loop: running, fps EMA already down at 10 fps,
restarted at time 0 (so the low-fps duration is 0). -/
def demoVizState : VizState :=
  vizStart 0 ⟨false, 0, 0, 10, 0, 1⟩

/-- Two ticks five and six seconds in: the first tick is 5000 ms late, so
the EMA stays far below the 32 fps threshold and the accumulated low-fps
time (5000 ms) immediately exceeds the 4000 ms window. -/
def demoVizTicks : List ℚ :=
  [5000, 6000]

/-! ## Theorems -/

/-- C2 counterexample: `setLimiter` is a raw state setter — storing a
threshold of -100 dB keeps -100, while clamping to the documented
Limiter-threshold range [-12, 0] would store -12. -/
theorem setter_does_not_clamp_cx :
    (setLimiter initEngineState ⟨-100, -3/10, 120, true, false⟩).limiter.threshold = -100 ∧
    clamp (-100 : ℚ) (-12) 0 = -12 ∧ ((-100 : ℚ) ≠ -12) :=
  ⟨rfl, by norm_num [clamp], by norm_num⟩

/-- C2 (amended): `applyBandGain` clamps band gains to [-24, 24] (in
particular `setBandGain("sub", 40)` stores 24) and `handleVolumeChange`
clamps the volume to [0, 1], but the sub-state setters `setCompressor`,
`setLimiter`, `setSaturation`, `setStereo`, `setOutput` store the given
records unchanged, with no clamping to the documented ranges. -/
theorem parameter_setter_behaviour :
    (∀ st b x, (applyBandGain st b x).eq.get b = clamp x (-24) 24) ∧
    (∀ st x, (handleVolumeChange st x).volume = clamp x 0 1) ∧
    (∀ st v, (setCompressor st v).compressor = v) ∧
    (∀ st v, (setLimiter st v).limiter = v) ∧
    (∀ st v, (setSaturation st v).saturation = v) ∧
    (∀ st v, (setStereo st v).stereo = v) ∧
    (∀ st v, (setOutput st v).output = v) ∧
    (applyBandGain initEngineState Band.sub 40).eq.sub = 24 := by
  refine ⟨?_, fun _ _ => rfl, fun _ _ => rfl, fun _ _ => rfl, fun _ _ => rfl,
    fun _ _ => rfl, fun _ _ => rfl,
    by norm_num [applyBandGain, EqSettings.setBand, clamp]⟩
  intro st b x
  cases b <;> rfl

/-- C8: preset import validates that `eq`, `compressor` and `limiter` are
all present; if any is absent it rejects with the validation error and
returns the prior state unchanged (chain, preset slots and persisted
storage included). -/
theorem importPresetJson_rejects_unchanged (st : EngineState) (parsed : ParsedPreset)
    (h : parsed.eq = none ∨ parsed.compressor = none ∨ parsed.limiter = none) :
    importPresetJson st parsed = (st, some "Invalid preset file.") := by
  unfold importPresetJson
  rw [if_pos h]

/-- C8 witness: a document missing `eq` is rejected and the initial state
is returned untouched. -/
theorem importPresetJson_rejects_unchanged_witness :
    importPresetJson initEngineState demoBadParsed =
      (initEngineState, some "Invalid preset file.") :=
  importPresetJson_rejects_unchanged initEngineState demoBadParsed (Or.inl rfl)

/-- C7: with gain-matching enabled, recalling a stored preset sets the
output gain-match offset to
`clamp(currentActiveLufs - preset.lufs, -12, 12)`, where the current
active LUFS is the active slot's captured value (falling back to the live
integrated reading) — and disabling gain-matching resets the offset to 0. -/
theorem recall_gain_match_offset :
    (∀ st slot preset, presetFor st slot = some preset →
      st.gainMatchEnabled = true →
      (recallPresetSlot st slot).gainMatchOffset =
        clamp (((presetFor st st.activePresetSlot).bind MasteringPreset.lufs).getD
                 st.meterLufsIntegrated
               - preset.lufs.getD st.meterLufsIntegrated) (-12) 12) ∧
    (∀ st, (setGainMatchEnabled st false).gainMatchOffset = 0) := by
  constructor
  · intro st slot preset hp hg
    unfold recallPresetSlot
    rw [hp]
    simp [applyPreset, hg]
  · intro st
    rfl

/-- C7 witness: preset A captured at -10 LUFS is active, preset B captured
at -16 LUFS is recalled with gain-matching enabled — the applied offset is
`clamp(-10 - (-16), -12, 12) = 6`. -/
theorem recall_gain_match_offset_witness :
    (recallPresetSlot demoStateAB Slot.B).gainMatchOffset = 6 := by
  have h := recall_gain_match_offset.1 demoStateAB Slot.B demoPresetB rfl rfl
  rw [h]
  norm_num [demoStateAB, demoPresetA, demoPresetB, presetFor, initEngineState, clamp]

/-- C10: the Meter Unit writes every input sample to the output unchanged,
whatever the bypass parameter — metering never modifies the audio passing
through it. -/
theorem meter_output_passthrough (st : MeterState) (bypass : ℚ)
    (input : List (List ℚ)) :
    (meterBlock st bypass input).2.1 = input := by
  unfold meterBlock
  split
  · rfl
  · simp only [ite_self, List.map_id']
    split <;> rfl

/-- A stopped loop does nothing on a tick. -/
theorem vizLoopTick_stopped (s : VizState) (now : ℚ) (h : s.isRunning = false) :
    vizLoopTick s now = (s, quietTick) := by
  unfold vizLoopTick
  rw [if_pos h]

/-- A stopped loop stays stopped and does nothing for a whole run. -/
theorem vizRun_stopped (s : VizState) (ticks : List ℚ) (h : s.isRunning = false) :
    vizRun s ticks = (s, List.replicate ticks.length quietTick) := by
  induction ticks with
  | nil => rfl
  | cons t rest ih =>
    simp [vizRun, vizLoopTick_stopped s t h, ih, List.replicate_succ]

/-- A tick that fires the auto-disable signal leaves the loop stopped. -/
theorem vizLoopTick_signal_stops (s : VizState) (now : ℚ)
    (h : (vizLoopTick s now).2.signaled = true) :
    (vizLoopTick s now).1.isRunning = false := by
  unfold vizLoopTick at h ⊢
  dsimp only at h ⊢
  split_ifs at h ⊢ <;> simp_all [quietTick]

/-- Ticks that fire no signal draw nothing only when they also skipped the
frame; in all cases a signaling tick itself draws nothing. -/
theorem vizLoopTick_signal_no_draw (s : VizState) (now : ℚ)
    (h : (vizLoopTick s now).2.signaled = true) :
    (vizLoopTick s now).2.drewCritical = false ∧
    (vizLoopTick s now).2.drewBackground = false := by
  unfold vizLoopTick at h ⊢
  dsimp only at h ⊢
  split_ifs at h ⊢ <;> simp_all [quietTick]

/-- Counting with a predicate the repeated element fails gives zero. -/
theorem countP_replicate_zero {α : Type} (p : α → Bool) (a : α) (n : ℕ)
    (h : p a = false) : (List.replicate n a).countP p = 0 := by
  induction n with
  | zero => rfl
  | succ n ih => simp [List.replicate_succ, List.countP_cons, h, ih]

/-- Every repeated element satisfies a predicate it satisfies. -/
theorem all_replicate_of {α : Type} (p : α → Bool) (a : α) (n : ℕ)
    (h : p a = true) : (List.replicate n a).all p = true := by
  induction n with
  | zero => rfl
  | succ n ih => simp [List.replicate_succ, h, ih]

/-- In any run of the visualizer loop, at most one auto-disable signal is
fired, and every tick after the first signaling one neither draws (critical
or background pass) nor signals again. -/
theorem viz_signal_once_aux (s : VizState) (ticks : List ℚ) :
    ((vizRun s ticks).2.countP (fun o => o.signaled)) ≤ 1 ∧
    ((((vizRun s ticks).2.dropWhile (fun o => !o.signaled)).tail).all
      (fun o => !o.signaled && !o.drewCritical && !o.drewBackground)) = true := by
  induction ticks generalizing s with
  | nil => simp [vizRun]
  | cons t rest ih =>
    have hrun : vizRun s (t :: rest) =
        ((vizRun (vizLoopTick s t).1 rest).1,
         (vizLoopTick s t).2 :: (vizRun (vizLoopTick s t).1 rest).2) := rfl
    by_cases hsig : (vizLoopTick s t).2.signaled = true
    · have hstop := vizLoopTick_signal_stops s t hsig
      have hrest := vizRun_stopped (vizLoopTick s t).1 rest hstop
      constructor
      · rw [hrun]
        simp only [List.countP_cons, hrest, hsig]
        rw [countP_replicate_zero _ _ _ rfl]
        simp
      · rw [hrun]
        simp only [hrest, List.dropWhile_cons, hsig, Bool.not_true, Bool.false_eq_true,
          if_false, List.tail_cons]
        exact all_replicate_of _ _ _ rfl
    · have hsig' : (vizLoopTick s t).2.signaled = false := by
        revert hsig
        cases (vizLoopTick s t).2.signaled <;> simp
      constructor
      · rw [hrun]
        simp only [List.countP_cons, hsig']
        simpa using (ih (vizLoopTick s t).1).1
      · rw [hrun]
        simp only [List.dropWhile_cons, hsig', Bool.not_false, if_true]
        exact (ih (vizLoopTick s t).1).2

/-- C9: in every run of the visualizer loop the auto-disable host signal is
fired at most once and no draw pass (critical or background) happens after
the signaling tick; and in a concrete degraded run the sustained low-fps
window is exceeded, the loop fires the signal exactly once, stops, and
draws nothing afterwards. -/
theorem visualizer_low_fps_auto_disable (s : VizState) (ticks : List ℚ) :
    ((vizRun s ticks).2.countP (fun o => o.signaled)) ≤ 1 ∧
    ((((vizRun s ticks).2.dropWhile (fun o => !o.signaled)).tail).all
      (fun o => !o.signaled && !o.drewCritical && !o.drewBackground)) = true ∧
    (vizRun demoVizState demoVizTicks).2 = [⟨false, false, true⟩, quietTick] ∧
    (vizRun demoVizState demoVizTicks).1.isRunning = false := by
  refine ⟨(viz_signal_once_aux s ticks).1, (viz_signal_once_aux s ticks).2, ?_⟩
  have hdemo : vizRun demoVizState demoVizTicks =
      (⟨false, 5000, 1, 451/50, 5000, 1⟩, [⟨false, false, true⟩, quietTick]) := by
    norm_num [vizRun, vizLoopTick, demoVizState, demoVizTicks, vizStart, jsMod,
      frameInterval, lowFpsThreshold, lowFpsWindow, quietTick]
  rw [hdemo]
  exact ⟨rfl, rfl⟩

/-- Reading a replicated list with a default. -/
theorem getD_replicate {α : Type} (n i : ℕ) (a d : α) :
    (List.replicate n a).getD i d = if i < n then a else d := by
  induction n generalizing i with
  | zero => simp
  | succ n ih =>
    cases i with
    | zero => simp [List.replicate_succ]
    | succ i => simpa [List.replicate_succ, Nat.succ_lt_succ_iff] using ih i

/-- Writing the repeated value into a replicated list changes nothing. -/
theorem set_replicate_self {α : Type} (n i : ℕ) (a : α) :
    (List.replicate n a).set i a = List.replicate n a := by
  induction n generalizing i with
  | zero => rfl
  | succ n ih =>
    cases i with
    | zero => simp [List.replicate_succ]
    | succ i => simp [List.replicate_succ, ih]

/-- Reading an all-zero list gives zero. -/
theorem getD_zero_of_all_zero (l : List ℚ) (i : ℕ) (h : ∀ x ∈ l, x = 0) :
    l.getD i 0 = 0 := by
  induction l generalizing i with
  | nil => rfl
  | cons a l ih =>
    cases i with
    | zero => simpa using h a (by simp)
    | succ i =>
      simpa using ih i (fun x hx => h x (by simp [hx]))

/-- Writing a zero into an all-zero list keeps it all zero. -/
theorem set_zero_all_zero (l : List ℚ) (i : ℕ) (h : ∀ x ∈ l, x = 0) :
    ∀ x ∈ l.set i 0, x = 0 := by
  intro x hx
  rcases List.mem_or_eq_of_mem_set hx with h1 | h1
  · exact h x h1
  · exact h1

/-- The frame-sum fold over channels that all read zero adds nothing. -/
theorem foldl_sq_zero (l : List (List ℚ)) (i : ℕ) (acc : ℚ)
    (h : ∀ c ∈ l, c.getD i 0 = 0) :
    l.foldl (fun a c => a + c.getD i 0 * c.getD i 0) acc = acc := by
  induction l generalizing acc with
  | nil => rfl
  | cons c l ih =>
    have hc := h c (by simp)
    simp only [List.foldl_cons, hc, mul_zero, add_zero]
    exact ih acc (fun c hcm => h c (by simp [hcm]))

/-- One meter step on an all-zero frame keeps the state silent. -/
theorem meterStep_silent (channels : ℕ) (input : List (List ℚ)) (i : ℕ)
    (st : MeterState) (sums : BlockSums)
    (hz : ∀ c ∈ input, ∀ x ∈ c, x = 0) (hst : SilentMeter st) :
    SilentMeter (meterStep channels input i st sums).1 := by
  obtain ⟨h1, h2, h3, h4, h5⟩ := hst
  have hc : ∀ c ∈ input, c.getD i 0 = 0 :=
    fun c hcm => getD_zero_of_all_zero c i (hz c hcm)
  have hfs : input.foldl (fun a c => a + c.getD i 0 * c.getD i 0) 0 = 0 :=
    foldl_sq_zero input i 0 hc
  have hm : st.momentaryBuffer[st.momentaryIndex]?.getD 0 = 0 := by
    simpa using getD_zero_of_all_zero st.momentaryBuffer st.momentaryIndex h4
  have hs : st.shortBuffer[st.shortIndex]?.getD 0 = 0 := by
    simpa using getD_zero_of_all_zero st.shortBuffer st.shortIndex h5
  unfold meterStep SilentMeter
  dsimp only
  rw [hfs]
  refine ⟨by simp [hm, h1], by simp [hs, h2], by simp [h3], ?_, ?_⟩
  · simpa using set_zero_all_zero st.momentaryBuffer st.momentaryIndex h4
  · simpa using set_zero_all_zero st.shortBuffer st.shortIndex h5

/-- The whole sample loop on an all-zero block keeps the state silent. -/
theorem foldl_meterStep_silent (channels : ℕ) (input : List (List ℚ))
    (hz : ∀ c ∈ input, ∀ x ∈ c, x = 0) :
    ∀ (idxs : List ℕ) (st : MeterState) (sums : BlockSums), SilentMeter st →
      SilentMeter
        ((idxs.foldl (fun acc i => meterStep channels input i acc.1 acc.2)
          (st, sums)).1) := by
  intro idxs
  induction idxs with
  | nil => intro st sums h; exact h
  | cons i idxs ih =>
    intro st sums h
    simp only [List.foldl_cons]
    exact ih (meterStep channels input i st sums).1
      (meterStep channels input i st sums).2
      (meterStep_silent channels input i st sums hz h)

/-- `meterScan` on an all-zero block keeps the state silent. -/
theorem meterScan_silent (st : MeterState) (input : List (List ℚ))
    (hz : ∀ c ∈ input, ∀ x ∈ c, x = 0) (hst : SilentMeter st) :
    SilentMeter (meterScan st input).1 :=
  foldl_meterStep_silent input.length input hz
    (List.range (input.headD []).length) st ⟨0, 0, 0, 0, 0, 0⟩ hst

/-- One `process` call on an all-zero block keeps the state silent, and any
report it emits carries -120 for all three loudness values. -/
theorem meterBlock_silent (st : MeterState) (bypass : ℚ) (input : List (List ℚ))
    (hz : ∀ c ∈ input, ∀ x ∈ c, x = 0) (hst : SilentMeter st) :
    SilentMeter (meterBlock st bypass input).1 ∧
    ∀ r ∈ (meterBlock st bypass input).2.2.toList,
      (r.lufsMomentary, r.lufsShort, r.lufsIntegrated) =
        ((-120 : ℝ), (-120 : ℝ), (-120 : ℝ)) := by
  have hscan := meterScan_silent st input hz hst
  obtain ⟨h1, h2, h3, h4, h5⟩ := hscan
  unfold meterBlock
  split
  · exact ⟨hst, by simp⟩
  · dsimp only
    split
    · constructor
      · exact ⟨h1, h2, h3, h4, h5⟩
      · intro r hr
        simp only [Option.toList_some, List.mem_singleton] at hr
        subst hr
        dsimp only
        rw [h1, h2, h3]
        norm_num [calcLufs]
    · exact ⟨⟨h1, h2, h3, h4, h5⟩, by simp⟩

/-- A whole run over all-zero blocks reports -120 LUFS throughout. -/
theorem meterRun_silent (bypass : ℚ) :
    ∀ (blocks : List (List (List ℚ))) (st : MeterState),
      (∀ b ∈ blocks, ∀ c ∈ b, ∀ x ∈ c, x = 0) → SilentMeter st →
      ∀ r ∈ (meterRun st bypass blocks).2,
        (r.lufsMomentary, r.lufsShort, r.lufsIntegrated) =
          ((-120 : ℝ), (-120 : ℝ), (-120 : ℝ)) := by
  intro blocks
  induction blocks with
  | nil => intro st _ _ r hr; simp [meterRun] at hr
  | cons b rest ih =>
    intro st hz hst r hr
    have hb := meterBlock_silent st bypass b (hz b (by simp)) hst
    simp only [meterRun, List.mem_append] at hr
    rcases hr with hr | hr
    · exact hb.2 r hr
    · exact ih (meterBlock st bypass b).1
        (fun b2 hb2 => hz b2 (by simp [hb2])) hb.1 r hr

/-- Mapping a constant-valued function is a replicate. -/
theorem map_eq_replicate_of {α β : Type} (l : List α) (f : α → β) (v : β)
    (h : ∀ x ∈ l, f x = v) : l.map f = List.replicate l.length v := by
  induction l with
  | nil => rfl
  | cons a l ih =>
    simp only [List.map_cons, List.length_cons, List.replicate_succ, h a (by simp)]
    rw [ih (fun x hx => h x (by simp [hx]))]

/-- The sample loop never touches the sample rate, frame counter or report
marker. -/
theorem foldl_meterStep_counters (channels : ℕ) (input : List (List ℚ)) :
    ∀ (idxs : List ℕ) (st : MeterState) (sums : BlockSums),
      (((idxs.foldl (fun acc i => meterStep channels input i acc.1 acc.2)
          (st, sums)).1.frameCounter = st.frameCounter) ∧
       ((idxs.foldl (fun acc i => meterStep channels input i acc.1 acc.2)
          (st, sums)).1.lastReport = st.lastReport) ∧
       ((idxs.foldl (fun acc i => meterStep channels input i acc.1 acc.2)
          (st, sums)).1.sampleRate = st.sampleRate)) := by
  intro idxs
  induction idxs with
  | nil => intro st sums; exact ⟨rfl, rfl, rfl⟩
  | cons i idxs ih =>
    intro st sums
    simp only [List.foldl_cons]
    exact ih (meterStep channels input i st sums).1 (meterStep channels input i st sums).2

/-- `meterScan` preserves sample rate and both counters. -/
theorem meterScan_counters (st : MeterState) (input : List (List ℚ)) :
    (meterScan st input).1.frameCounter = st.frameCounter ∧
    (meterScan st input).1.lastReport = st.lastReport ∧
    (meterScan st input).1.sampleRate = st.sampleRate :=
  foldl_meterStep_counters input.length input
    (List.range (input.headD []).length) st ⟨0, 0, 0, 0, 0, 0⟩

/-- A block that crosses the 50 ms report cadence emits exactly one report. -/
theorem meterBlock_report_length (st : MeterState) (bypass : ℚ)
    (input : List (List ℚ)) (h0 : ¬input.length = 0)
    (hc : st.sampleRate * (5/100) ≤
      ((st.frameCounter + (input.headD []).length : ℕ) : ℚ) - (st.lastReport : ℚ)) :
    (meterBlock st bypass input).2.2.toList.length = 1 := by
  obtain ⟨hf, hl, hs⟩ := meterScan_counters st input
  unfold meterBlock
  rw [if_neg h0]
  dsimp only
  rw [if_pos (by rw [hf, hl, hs]; exact_mod_cast hc)]
  rfl

/-- C3: the Meter Unit's loudness floor — starting from the processor's
initial state, any run over all-zero blocks reports -120 for the
momentary, short-term and integrated LUFS alike; concretely, two silent
samples at a 40 Hz sample rate cross the report cadence and produce exactly
the report (-120, -120, -120). -/
theorem meter_silent_reports_floor (sr bypass : ℚ) (shape : List (ℕ × ℕ)) :
    (meterRun (initMeter sr) bypass (zeroBlocks shape)).2.map
        (fun r => (r.lufsMomentary, r.lufsShort, r.lufsIntegrated))
      = List.replicate
          (meterRun (initMeter sr) bypass (zeroBlocks shape)).2.length
          ((-120 : ℝ), (-120 : ℝ), (-120 : ℝ)) ∧
    (meterRun (initMeter 40) 0 (zeroBlocks [(1, 2)])).2.map
        (fun r => (r.lufsMomentary, r.lufsShort, r.lufsIntegrated))
      = [((-120 : ℝ), (-120 : ℝ), (-120 : ℝ))] := by
  have hinit : ∀ s : ℚ, SilentMeter (initMeter s) := by
    intro s
    refine ⟨rfl, rfl, rfl, ?_, ?_⟩ <;> intro x hx <;> exact List.eq_of_mem_replicate hx
  have hzb : ∀ sh : List (ℕ × ℕ), ∀ b ∈ zeroBlocks sh, ∀ c ∈ b, ∀ x ∈ c, x = 0 := by
    intro sh b hb c hc x hx
    simp only [zeroBlocks, List.mem_map] at hb
    obtain ⟨cs, _, rfl⟩ := hb
    have hcz := List.eq_of_mem_replicate hc
    subst hcz
    exact List.eq_of_mem_replicate hx
  refine ⟨map_eq_replicate_of _ _ _
    (meterRun_silent bypass (zeroBlocks shape) (initMeter sr) (hzb shape) (hinit sr)), ?_⟩
  have hgen := map_eq_replicate_of _ _ _
    (meterRun_silent 0 (zeroBlocks [(1, 2)]) (initMeter 40) (hzb [(1, 2)]) (hinit 40))
  rw [hgen]
  have hzb2 : zeroBlocks [(1, 2)] = [[List.replicate 2 0]] := by
    simp [zeroBlocks]
  have hlen : (meterRun (initMeter 40) 0 (zeroBlocks [(1, 2)])).2.length = 1 := by
    rw [hzb2]
    show ((meterBlock (initMeter 40) 0 [List.replicate 2 0]).2.2.toList ++ []).length = 1
    rw [List.append_nil]
    refine meterBlock_report_length _ _ _ (by simp) ?_
    norm_num [initMeter]
  rw [hlen]
  rfl

/-- On an at-least-stereo block the sample loop accumulates exactly the
per-index products of the first two channels into the correlation sums. -/
theorem foldl_meterStep_corr (channels : ℕ) (input : List (List ℚ))
    (hch : 1 < channels) :
    ∀ (idxs : List ℕ) (st : MeterState) (sums : BlockSums),
      (((idxs.foldl (fun acc i => meterStep channels input i acc.1 acc.2)
          (st, sums)).2.sumL
        = sums.sumL + (idxs.map (fun i =>
            (input.getD 0 []).getD i 0 * (input.getD 1 []).getD i 0)).sum) ∧
       ((idxs.foldl (fun acc i => meterStep channels input i acc.1 acc.2)
          (st, sums)).2.sumLL
        = sums.sumLL + (idxs.map (fun i =>
            (input.getD 0 []).getD i 0 * (input.getD 0 []).getD i 0)).sum) ∧
       ((idxs.foldl (fun acc i => meterStep channels input i acc.1 acc.2)
          (st, sums)).2.sumRR
        = sums.sumRR + (idxs.map (fun i =>
            (input.getD 1 []).getD i 0 * (input.getD 1 []).getD i 0)).sum)) := by
  intro idxs
  induction idxs with
  | nil => intro st sums; simp
  | cons i idxs ih =>
    intro st sums
    simp only [List.foldl_cons, List.map_cons, List.sum_cons]
    obtain ⟨e1, e2, e3⟩ :=
      ih (meterStep channels input i st sums).1 (meterStep channels input i st sums).2
    refine ⟨?_, ?_, ?_⟩
    · rw [e1]; simp only [meterStep, hch, if_true]; ring
    · rw [e2]; simp only [meterStep, hch, if_true]; ring
    · rw [e3]; simp only [meterStep, hch, if_true]; ring

/-- On a mono (or empty) block the sample loop leaves the correlation sums
untouched. -/
theorem foldl_meterStep_corr_mono (channels : ℕ) (input : List (List ℚ))
    (hch : ¬1 < channels) :
    ∀ (idxs : List ℕ) (st : MeterState) (sums : BlockSums),
      (((idxs.foldl (fun acc i => meterStep channels input i acc.1 acc.2)
          (st, sums)).2.sumL = sums.sumL) ∧
       ((idxs.foldl (fun acc i => meterStep channels input i acc.1 acc.2)
          (st, sums)).2.sumLL = sums.sumLL) ∧
       ((idxs.foldl (fun acc i => meterStep channels input i acc.1 acc.2)
          (st, sums)).2.sumRR = sums.sumRR)) := by
  intro idxs
  induction idxs with
  | nil => intro st sums; exact ⟨rfl, rfl, rfl⟩
  | cons i idxs ih =>
    intro st sums
    simp only [List.foldl_cons]
    obtain ⟨e1, e2, e3⟩ :=
      ih (meterStep channels input i st sums).1 (meterStep channels input i st sums).2
    refine ⟨?_, ?_, ?_⟩
    · rw [e1]; simp [meterStep, hch]
    · rw [e2]; simp [meterStep, hch]
    · rw [e3]; simp [meterStep, hch]

/-- The correlation sums of one `meterScan` are exactly the direct
per-block sums `corrSums`. -/
theorem meterScan_corrSums (st : MeterState) (input : List (List ℚ)) :
    (meterScan st input).2.sumL = (corrSums input).1 ∧
    (meterScan st input).2.sumLL = (corrSums input).2.1 ∧
    (meterScan st input).2.sumRR = (corrSums input).2.2 := by
  by_cases hch : 1 < input.length
  · obtain ⟨e1, e2, e3⟩ := foldl_meterStep_corr input.length input hch
      (List.range (input.headD []).length) st ⟨0, 0, 0, 0, 0, 0⟩
    unfold meterScan corrSums
    rw [if_pos hch]
    exact ⟨by rw [e1]; ring, by rw [e2]; ring, by rw [e3]; ring⟩
  · obtain ⟨e1, e2, e3⟩ := foldl_meterStep_corr_mono input.length input hch
      (List.range (input.headD []).length) st ⟨0, 0, 0, 0, 0, 0⟩
    unfold meterScan corrSums
    rw [if_neg hch]
    exact ⟨e1, e2, e3⟩

/-- A block that stays under the report cadence emits nothing and only
advances the frame counter. -/
theorem meterBlock_no_report (st : MeterState) (bypass : ℚ) (input : List (List ℚ))
    (h0 : ¬input.length = 0)
    (hc : ¬(st.sampleRate * (5/100) ≤
      ((st.frameCounter + (input.headD []).length : ℕ) : ℚ) - (st.lastReport : ℚ))) :
    (meterBlock st bypass input).2.2 = none ∧
    (meterBlock st bypass input).1.sampleRate = st.sampleRate ∧
    (meterBlock st bypass input).1.frameCounter =
      st.frameCounter + (input.headD []).length ∧
    (meterBlock st bypass input).1.lastReport = st.lastReport := by
  obtain ⟨hf, hl, hs⟩ := meterScan_counters st input
  unfold meterBlock
  rw [if_neg h0]
  dsimp only
  rw [if_neg (by rw [hf, hl, hs]; exact_mod_cast hc)]
  exact ⟨rfl, by dsimp only; rw [hs], by dsimp only; rw [hf], by dsimp only; rw [hl]⟩

/-- A block that crosses the report cadence reports the correlation of the
current block's own sums. -/
theorem meterBlock_report_correlation (st : MeterState) (bypass : ℚ)
    (input : List (List ℚ)) (h0 : ¬input.length = 0)
    (hc : st.sampleRate * (5/100) ≤
      ((st.frameCounter + (input.headD []).length : ℕ) : ℚ) - (st.lastReport : ℚ)) :
    ((meterBlock st bypass input).2.2).map (fun r => r.correlation) =
      some (if 1 < input.length ∧ 0 < (corrSums input).2.1 ∧ 0 < (corrSums input).2.2
        then ((corrSums input).1 : ℝ) /
          Real.sqrt (((corrSums input).2.1 : ℝ) * ((corrSums input).2.2 : ℝ))
        else 0) := by
  obtain ⟨hf, hl, hs⟩ := meterScan_counters st input
  obtain ⟨c1, c2, c3⟩ := meterScan_corrSums st input
  unfold meterBlock
  rw [if_neg h0]
  dsimp only
  rw [if_pos (by rw [hf, hl, hs]; exact_mod_cast hc)]
  dsimp only [Option.map_some']
  rw [c1, c2, c3]

/-- C6 (amended): the correlation sums are local variables of one `process`
call, so they reset every processed block — not every report; the reported
correlation is `ΣLR / sqrt(ΣLL·ΣRR)` over the final block alone (0 when the
block is mono or either sum of squares is 0). -/
theorem meter_correlation_current_block (st : MeterState) (bypass : ℚ)
    (input : List (List ℚ)) :
    ((meterBlock st bypass input).2.2).map (fun r => r.correlation) =
      ((meterBlock st bypass input).2.2).map (fun _ =>
        if 1 < input.length ∧ 0 < (corrSums input).2.1 ∧ 0 < (corrSums input).2.2
        then ((corrSums input).1 : ℝ) /
          Real.sqrt (((corrSums input).2.1 : ℝ) * ((corrSums input).2.2 : ℝ))
        else 0) := by
  by_cases h0 : input.length = 0
  · unfold meterBlock
    rw [if_pos h0]
    rfl
  · by_cases hc : st.sampleRate * (5/100) ≤
      ((st.frameCounter + (input.headD []).length : ℕ) : ℚ) - (st.lastReport : ℚ)
    · have hmap := meterBlock_report_correlation st bypass input h0 hc
      rw [hmap]
      cases ho : (meterBlock st bypass input).2.2 with
      | none => rw [ho] at hmap; cases hmap
      | some r => rfl
    · rw [(meterBlock_no_report st bypass input h0 hc).1]
      rfl

/-- C6 counterexample: at a 40 Hz sample rate (report cadence = 2 samples),
feed a one-sample block with L = R = 1 and then a one-sample block with
L = 1, R = -1.  The report at the second block uses only that block's sums
and says -1, while sums accumulated "since the last report" (both blocks)
would give ΣLR = 0 and correlation 0. -/
theorem meter_correlation_since_report_cx :
    ((meterRun (initMeter 40) 0 [[[1], [1]], [[1], [-1]]]).2.map
      (fun r => r.correlation)) = [(-1 : ℝ)] ∧
    specCorrelationSinceReport [[[1], [1]], [[1], [-1]]] = 0 ∧
    ((-1 : ℝ) ≠ 0) := by
  refine ⟨?_, ?_, by norm_num⟩
  · have hb1 := meterBlock_no_report (initMeter 40) 0 [[1], [1]] (by simp)
      (by norm_num [initMeter])
    have hcond2 : ((meterBlock (initMeter 40) 0 [[1], [1]]).1).sampleRate * (5/100) ≤
        (((meterBlock (initMeter 40) 0 [[1], [1]]).1.frameCounter +
          (([[1], [-1]] : List (List ℚ)).headD []).length : ℕ) : ℚ) -
        ((meterBlock (initMeter 40) 0 [[1], [1]]).1.lastReport : ℚ) := by
      rw [hb1.2.1, hb1.2.2.1, hb1.2.2.2]
      norm_num [initMeter]
    have hb2 := meterBlock_report_correlation ((meterBlock (initMeter 40) 0 [[1], [1]]).1)
      0 [[1], [-1]] (by simp) hcond2
    obtain ⟨r, hr⟩ : ∃ r, (meterBlock ((meterBlock (initMeter 40) 0 [[1], [1]]).1)
        0 [[1], [-1]]).2.2 = some r := by
      cases ho : (meterBlock ((meterBlock (initMeter 40) 0 [[1], [1]]).1)
          0 [[1], [-1]]).2.2 with
      | none => rw [ho] at hb2; cases hb2
      | some r => exact ⟨r, rfl⟩
    rw [hr] at hb2
    simp only [Option.map_some', Option.some_inj] at hb2
    show (((meterBlock (initMeter 40) 0 [[1], [1]]).2.2.toList ++
      ((meterBlock ((meterBlock (initMeter 40) 0 [[1], [1]]).1) 0 [[1], [-1]]).2.2.toList
        ++ [])).map (fun r : Report => r.correlation)) = [(-1 : ℝ)]
    rw [hb1.1, hr]
    simp only [Option.toList_none, Option.toList_some, List.nil_append, List.append_nil,
      List.map_cons, List.map_nil, hb2]
    have hcs : corrSums [[1], [-1]] = (-1, 1, 1) := by
      norm_num [corrSums, List.range_succ]
    rw [hcs]
    norm_num
  · have hcs1 : corrSums [[1], [1]] = (1, 1, 1) := by
      norm_num [corrSums, List.range_succ]
    have hcs2 : corrSums [[1], [-1]] = (-1, 1, 1) := by
      norm_num [corrSums, List.range_succ]
    unfold specCorrelationSinceReport
    rw [List.foldl_cons, List.foldl_cons, List.foldl_nil, hcs1, hcs2]
    norm_num

/-- C4: offline-render normalization measures the whole-buffer mean-square
loudness with the meter's own formula, multiplies every sample by
`10^((target - measured)/20)`, and hard-clamps to `[-1, 1]`, so no sample
of the normalized export exceeds magnitude 1. -/
theorem export_normalization_clamped :
    (∀ (b : List (List ℝ)) (t : ℝ),
      normalizeRender b t = applyGainToBuffer b (dbToGain (t - calcIntegratedLufs b))) ∧
    (∀ b : List (List ℝ), ¬b.length = 0 → ¬(b.headD []).length = 0 →
      calcIntegratedLufs b = calcLufs (wholeBufferMeanSquare b)) ∧
    (∀ (b : List (List ℝ)) (t : ℝ), ∀ ch ∈ normalizeRender b t, ∀ s ∈ ch, |s| ≤ 1) := by
  refine ⟨fun b t => rfl, ?_, ?_⟩
  · intro b h1 h2
    unfold calcIntegratedLufs calcLufs wholeBufferMeanSquare
    rw [if_neg (not_or.mpr ⟨h1, h2⟩)]
  · intro b t ch hch s hs
    simp only [normalizeRender, applyGainToBuffer, List.mem_map] at hch
    obtain ⟨data, _, rfl⟩ := hch
    simp only [List.mem_map] at hs
    obtain ⟨x, _, rfl⟩ := hs
    unfold clamp
    exact abs_le.mpr ⟨le_min (by norm_num) (le_max_left _ _), min_le_left _ _⟩

/-- C4 witness: a one-sample silent buffer normalized to 0 LUFS stays
within ±1, and its measured loudness is the loudness of its whole-buffer
mean square. -/
theorem export_normalization_clamped_witness :
    |clamp ((0 : ℝ) * dbToGain ((0 : ℝ) - calcIntegratedLufs [[0]])) (-1) 1| ≤ 1 ∧
    calcIntegratedLufs [[(0 : ℝ)]] = calcLufs (wholeBufferMeanSquare [[(0 : ℝ)]]) := by
  constructor
  · exact export_normalization_clamped.2.2 [[0]] 0
      [clamp ((0 : ℝ) * dbToGain ((0 : ℝ) - calcIntegratedLufs [[0]])) (-1) 1]
      (by simp [normalizeRender, applyGainToBuffer]) _ (by simp)
  · exact export_normalization_clamped.2.1 [[(0 : ℝ)]] (by norm_num) (by norm_num)

/-- The hyperbolic tangent stays within ±1. -/
theorem abs_tanh_le_one (x : ℝ) : |Real.tanh x| ≤ 1 := by
  rw [Real.tanh_eq_sinh_div_cosh, abs_div, abs_of_pos (Real.cosh_pos x),
    div_le_one (Real.cosh_pos x), Real.abs_sinh]
  exact le_of_lt (lt_of_lt_of_eq (Real.sinh_lt_cosh |x|) (Real.cosh_abs x))

/-- `dbToGain` is positive. -/
theorem dbToGain_pos (db : ℝ) : 0 < dbToGain db :=
  Real.rpow_pos_of_pos (by norm_num) _

/-- A ceiling of at least -6 dB converts to a linear gain of at least
0.0001, so the soft-clip guard `max(0.0001, ceiling)` is the ceiling
itself. -/
theorem dbToGain_ge_floor {db : ℝ} (h : -6 ≤ db) : (1/10000 : ℝ) ≤ dbToGain db := by
  have h1 : ((10 : ℝ) ^ (((-4 : ℤ) : ℝ))) = 1/10000 := by
    rw [Real.rpow_intCast]
    norm_num
  rw [← h1]
  unfold dbToGain
  apply Real.rpow_le_rpow_of_exponent_le (by norm_num)
  push_cast
  linarith

/-- `Math.sign` has magnitude at most 1. -/
theorem jsSign_abs_le_one (x : ℝ) : |jsSign x| ≤ 1 := by
  unfold jsSign
  split_ifs <;> norm_num

/-- The limiter's per-sample output stage (hard clamp then optional soft
clip) is bounded by the ceiling. -/
theorem limiter_post_bound (out0 c soft : ℝ) (hc : (1/10000 : ℝ) ≤ c) :
    |if (5/10 : ℝ) < soft then
        softClipFn (if c < |out0| then jsSign out0 * c else out0) c
      else if c < |out0| then jsSign out0 * c else out0| ≤ c := by
  have hcpos : (0 : ℝ) < c := lt_of_lt_of_le (by norm_num) hc
  have hout1 : |if c < |out0| then jsSign out0 * c else out0| ≤ c := by
    split_ifs with h
    · rw [abs_mul, abs_of_pos hcpos]
      exact mul_le_of_le_one_left hcpos.le (jsSign_abs_le_one _)
    · exact le_of_not_lt h
  by_cases hsoft : (5/10 : ℝ) < soft
  · rw [if_pos hsoft]
    unfold softClipFn
    rw [max_eq_right hc, abs_mul, abs_of_pos hcpos]
    exact mul_le_of_le_one_left hcpos.le (abs_tanh_le_one _)
  · rw [if_neg hsoft]
    exact hout1

/-- Every sample of one limiter step's output frame is bounded by the
ceiling gain. -/
theorem limiterStep_out_bound (sampleRate : ℝ) (p : LimiterParams)
    (input : List (List ℝ)) (i : ℕ) (env : ℝ) (hceil : -6 ≤ p.ceiling) :
    ∀ s ∈ (limiterStep sampleRate p input i env).2, |s| ≤ dbToGain p.ceiling := by
  intro s hs
  unfold limiterStep at hs
  dsimp only at hs
  simp only [List.mem_map] at hs
  obtain ⟨chData, _, rfl⟩ := hs
  exact limiter_post_bound _ _ _ (dbToGain_ge_floor hceil)

/-- The limiter's sample loop only appends ceiling-bounded frames. -/
theorem limiterBlock_fold_bound (sampleRate : ℝ) (p : LimiterParams)
    (input : List (List ℝ)) (hceil : -6 ≤ p.ceiling) :
    ∀ (idxs : List ℕ) (env : ℝ) (acc : List (List ℝ)),
      (∀ fr ∈ acc, ∀ s ∈ fr, |s| ≤ dbToGain p.ceiling) →
      ∀ fr ∈ (idxs.foldl (fun a i =>
          let st := limiterStep sampleRate p input i a.1
          (st.1, a.2 ++ [st.2])) (env, acc)).2,
        ∀ s ∈ fr, |s| ≤ dbToGain p.ceiling := by
  intro idxs
  induction idxs with
  | nil => intro env acc hacc; exact hacc
  | cons i idxs ih =>
    intro env acc hacc
    simp only [List.foldl_cons]
    refine ih _ _ ?_
    intro fr hfr
    rcases List.mem_append.mp hfr with hfr | hfr
    · exact hacc fr hfr
    · rw [List.mem_singleton.mp hfr]
      exact limiterStep_out_bound sampleRate p input i env hceil

/-- C1 (amended): the sample sanitization `x || 0` replaces NaN by 0 (an
Infinity, being truthy, passes through — see the counterexample), and for
every finite input block, whatever the parameters and prior envelope, no
output sample of the Limiter Unit exceeds the ceiling gain in magnitude. -/
theorem limiter_output_bounded :
    orZero JSNum.nan = JSNum.fin 0 ∧
    (∀ (sampleRate env0 : ℝ) (p : LimiterParams) (input : List (List ℝ)),
      ∀ fr ∈ (limiterBlock sampleRate p env0 input).2, ∀ s ∈ fr,
        |s| ≤ dbToGain (clamp p.ceiling (-6) 0)) := by
  refine ⟨rfl, ?_⟩
  intro sampleRate env0 p input fr hfr s hs
  have hceil : (-6 : ℝ) ≤ clamp p.ceiling (-6) 0 :=
    le_min (by norm_num) (le_max_left _ _)
  unfold limiterBlock at hfr
  split at hfr
  · simp at hfr
  · exact limiterBlock_fold_bound sampleRate (limiterParamClamp p) input hceil
      (List.range (input.headD []).length) env0 [] (by simp) fr hfr s hs

/-- C1 counterexample: the claimed defensive clamp of NaN/Inf inputs is
only half true — the sanitization `input[ch][i] || 0` zeroes NaN (falsy)
but lets +Infinity (truthy) pass through unclamped, so an Infinity is not
brought into the valid sample range before processing. -/
theorem limiter_sanitize_inf_cx :
    orZero JSNum.pinf = JSNum.pinf ∧ (orZero JSNum.pinf).isFinite = false :=
  ⟨rfl, rfl⟩

/-- C1 witness: a silent one-sample block with all parameters at 0 dB
produces the sample 0, whose magnitude is within the 0 dB ceiling gain. -/
theorem limiter_output_bounded_witness :
    |(0 : ℝ)| ≤ dbToGain (clamp (0 : ℝ) (-6) 0) := by
  have hmem : [(0 : ℝ)] ∈ (limiterBlock 44100 ⟨0, 0, 120, 0, 0⟩ 1 [[0]]).2 := by
    norm_num [limiterBlock, limiterStep, limiterParamClamp, clamp, dbToGain,
      jsSign, softClipFn, List.range_succ]
  exact limiter_output_bounded.2 44100 1 ⟨0, 0, 120, 0, 0⟩ [[0]]
    [(0 : ℝ)] hmem 0 (by simp)

/-- A defaulted read of a magnitude-bounded list is magnitude-bounded. -/
theorem abs_getD_le (c : List ℝ) (i : ℕ) (M : ℝ) (h0 : 0 ≤ M)
    (h : ∀ x ∈ c, |x| ≤ M) : |c.getD i 0| ≤ M := by
  induction c generalizing i with
  | nil => simpa using h0
  | cons a c ih =>
    cases i with
    | zero => simpa using h a (by simp)
    | succ i =>
      simpa using ih i (fun x hx => h x (by simp [hx]))

/-- With bypass on, soft clip off, and every sample within the ceiling, one
limiter step emits the input frame unchanged. -/
theorem limiterStep_bypass (sampleRate : ℝ) (p : LimiterParams)
    (input : List (List ℝ)) (i : ℕ) (env : ℝ)
    (hb : (5/10 : ℝ) < p.bypass) (hs : ¬(5/10 : ℝ) < p.softClip)
    (hin : ∀ c ∈ input, ∀ x ∈ c, |x| ≤ dbToGain p.ceiling) :
    (limiterStep sampleRate p input i env).2 = input.map (fun c => c.getD i 0) := by
  unfold limiterStep
  dsimp only
  refine List.map_congr_left ?_
  intro c hc
  dsimp only
  rw [if_pos hb,
    if_neg (not_lt.mpr (abs_getD_le c i _ (dbToGain_pos _).le (hin c hc))),
    if_neg hs]

/-- The limiter's sample loop under bypass appends exactly the input
frames. -/
theorem limiterBlock_fold_bypass (sampleRate : ℝ) (p : LimiterParams)
    (input : List (List ℝ))
    (hb : (5/10 : ℝ) < p.bypass) (hs : ¬(5/10 : ℝ) < p.softClip)
    (hin : ∀ c ∈ input, ∀ x ∈ c, |x| ≤ dbToGain p.ceiling) :
    ∀ (idxs : List ℕ) (env : ℝ) (acc : List (List ℝ)),
      (idxs.foldl (fun a i =>
          let st := limiterStep sampleRate p input i a.1
          (st.1, a.2 ++ [st.2])) (env, acc)).2 =
        acc ++ idxs.map (fun i => input.map (fun c => c.getD i 0)) := by
  intro idxs
  induction idxs with
  | nil => intro env acc; simp
  | cons i idxs ih =>
    intro env acc
    simp only [List.foldl_cons, List.map_cons]
    rw [ih _ _, limiterStep_bypass sampleRate p input i env hb hs hin]
    simp

/-- C5 (amended): with the bypass flag on, the Limiter Unit skips the
envelope gain — but the hard clamp to ±ceiling (and the soft clip, when
enabled) still runs, so the output equals the input exactly when soft clip
is off and every input sample is already within the ceiling gain. -/
theorem limiter_bypass_passthrough (sampleRate env0 : ℝ) (p : LimiterParams)
    (input : List (List ℝ))
    (hb : (5/10 : ℝ) < clamp p.bypass 0 1)
    (hs : ¬(5/10 : ℝ) < clamp p.softClip 0 1)
    (hin : ∀ c ∈ input, ∀ x ∈ c, |x| ≤ dbToGain (clamp p.ceiling (-6) 0)) :
    (limiterBlock sampleRate p env0 input).2 =
      (List.range (input.headD []).length).map (fun i =>
        input.map (fun c => c.getD i 0)) := by
  unfold limiterBlock
  split
  · rename_i h0
    rw [List.length_eq_zero.mp h0]
    rfl
  · rw [limiterBlock_fold_bypass sampleRate (limiterParamClamp p) input hb hs hin
      (List.range (input.headD []).length) env0 []]
    simp

/-- C5 counterexample: bypass on, soft clip off, ceiling 0 dB (gain 1),
input sample 2 — the bypassed limiter still hard-clamps and outputs 1, not
the input 2: bypass is not a pass-through. -/
theorem limiter_bypass_not_identity_cx :
    (limiterBlock 48000 ⟨0, 0, 120, 0, 1⟩ 1 [[2]]).2 = [[(1 : ℝ)]] ∧
    (limiterBlock 48000 ⟨0, 0, 120, 0, 1⟩ 1 [[2]]).2 ≠ [[(2 : ℝ)]] := by
  have hev : (limiterBlock 48000 ⟨0, 0, 120, 0, 1⟩ 1 [[2]]).2 = [[(1 : ℝ)]] := by
    norm_num [limiterBlock, limiterStep, limiterParamClamp, clamp, dbToGain,
      jsSign, softClipFn, List.range_succ]
  refine ⟨hev, ?_⟩
  rw [hev]
  intro h
  have := List.head_eq_of_cons_eq h
  have := List.head_eq_of_cons_eq this
  norm_num at this

/-- C5 witness: bypass on, soft clip off, ceiling 0 dB, the in-range sample
1/2 passes through unchanged. -/
theorem limiter_bypass_passthrough_witness :
    (limiterBlock 48000 ⟨0, 0, 120, 0, 1⟩ 1 [[(1/2 : ℝ)]]).2 = [[(1/2 : ℝ)]] := by
  rw [limiter_bypass_passthrough 48000 1 ⟨0, 0, 120, 0, 1⟩ [[(1/2 : ℝ)]]
    (by norm_num [clamp]) (by norm_num [clamp]) ?_]
  · simp [List.range_succ]
  · intro c hc x hx
    simp only [List.mem_singleton] at hc
    subst hc
    simp only [List.mem_singleton] at hx
    subst hx
    norm_num [clamp, dbToGain, abs_le]

end NeonSky
